import Mathlib

/-!
Verification of the EAGV2 repository's sandboxed user-code executor and the
agent loop that consumes it.

The executor core (`action/executor.py`, entry point `run_user_code`) is not
present in the source tree; only its tests (`action/test_executor.py`,
`action/quick_test.py`) and its caller (`agent/agent_loop_modified.py`) are.
Following the specification (spec.md §2–§8), the executor is therefore
modelled here from the spec's reconstruction of its contract: a Source
Transformer (keyword-to-positional rewrite, async wrapping), a Capability
Gate (allow-listed modules, tool bindings), a Call Budget Enforcer (one
shared counter per execution, default maximum 5), an Execution Engine
(fuel-bounded execution modelling the wall-clock timeout, result-value
priority: explicit return, then the `result` variable, then absent), and a
Result Reporter (the two-branch ExecutionResult record).

The agent-loop functions `_store_plan_and_return_step` and
`_execute_code_step` are embedded directly from
`src/session10/agent/agent_loop_modified.py`.
-/

namespace EAGV2

/-- Values computed by sandboxed code. The claims under verification only
need arithmetic, so values are modelled as integers; the `result` field of
an ExecutionResult is an `Option Value` (`none` models Python `None`). -/
abbrev Value := Int

/-- Modelled from the spec: the error taxonomy of spec.md §7 for the missing
`action/executor.py`. `parseError` is the SyntaxError kind, `importError` /
`nameError` the capability-violation kinds, `resourceLimitExceeded` the
tool-call-budget kind, `timeoutExpired` the Timeout kind, and
`runtimeError` every other exception raised by sandboxed code. -/
inductive ExecError where
  | parseError (msg : String)
  | importError (modName : String)
  | nameError (name : String)
  | resourceLimitExceeded (limit : Nat)
  | timeoutExpired
  | runtimeError (msg : String)
deriving DecidableEq, Repr

/-- Modelled from the spec: the human-readable message the Result Reporter
places in the `error` field for each error kind (spec.md §7 requires it to
name the disallowed module or state the call-count limit). -/
def errorMessage : ExecError → String
  | .parseError m => "Syntax error in code: " ++ m
  | .importError m => "Execution error: import of module " ++ m ++ " is not allowed"
  | .nameError n => "Execution error: name " ++ n ++ " is not defined"
  | .resourceLimitExceeded k =>
      "Execution error: max tool call limit (" ++ toString k ++ ") exceeded"
  | .timeoutExpired => "Execution timed out"
  | .runtimeError m => "Execution error: " ++ m

/-- Modelled from the spec: expressions of the sandboxed language executed by
the missing `action/executor.py`. A call carries positional arguments and
keyword arguments (name/value pairs); the Source Transformer rewrites the
keyword arguments away before execution (spec.md §4.1). -/
inductive Expr where
  | lit (n : Value)
  | var (name : String)
  | add (a b : Expr)
  | call (fn : String) (args : List Expr) (kwargs : List (String × Expr))

/-- Modelled from the spec: statements of the sandboxed language. `ret`
models a top-level `return` inside the synthetic async wrapper function
(spec.md §4.4); `whileTrue` models a nonterminating loop used to exercise
the timeout (spec.md §8). -/
inductive Stmt where
  | importMod (name : String)
  | assign (name : String) (e : Expr)
  | exprStmt (e : Expr)
  | ret (e : Expr)
  | whileTrue (body : List Stmt)

/-- Modelled from the spec: an ExecutionRequest's source text, after the
lexing stage. `malformed` stands for source text that fails to parse
(SyntaxError kind, spec.md §4.1); `prog` for a successfully parsed
statement list. -/
inductive Source where
  | malformed (msg : String)
  | prog (stmts : List Stmt)

mutual
/-- Modelled from the spec: the Source Transformer's keyword-to-positional
rewrite (spec.md §4.1): any call's keyword arguments are converted to
positional arguments, in the order given, discarding the keyword names. -/
def stripE : Expr → Expr
  | .lit n => .lit n
  | .var x => .var x
  | .add a b => .add (stripE a) (stripE b)
  | .call f args kwargs => .call f (stripArgs args ++ stripKw kwargs) []

/-- Keyword-to-positional rewrite mapped over a positional-argument list. -/
def stripArgs : List Expr → List Expr
  | [] => []
  | e :: es => stripE e :: stripArgs es

/-- Keyword arguments rewritten to a positional list, keeping order and
discarding names. -/
def stripKw : List (String × Expr) → List Expr
  | [] => []
  | kv :: kvs => stripE kv.2 :: stripKw kvs
end

mutual
/-- Modelled from the spec: the Source Transformer applied to a statement. -/
def stripS : Stmt → Stmt
  | .importMod m => .importMod m
  | .assign x e => .assign x (stripE e)
  | .exprStmt e => .exprStmt (stripE e)
  | .ret e => .ret (stripE e)
  | .whileTrue body => .whileTrue (stripSL body)

/-- The Source Transformer applied to a statement list. -/
def stripSL : List Stmt → List Stmt
  | [] => []
  | s :: ss => stripS s :: stripSL ss
end

/-- Modelled from the spec: the ToolRegistry (spec.md §3): a mapping from
tool name to the underlying capability, modelled as a pure function from
positional argument values to a result value. -/
abbrev ToolRegistry := List (String × (List Value → Value))

/-- Modelled from the spec: the executor's configuration surface
(spec.md §6): maximum tool-call count per execution (default 5) and the
execution timeout, modelled as a fuel budget of statement steps. -/
structure Config where
  maxCalls : Nat := 5
  timeout : Nat := 100
deriving DecidableEq, Repr

/-- Modelled from the spec: the allow-listed standard-library modules of the
Capability Gate (spec.md §4.2): side-effect-free modules such as math, json,
datetime, string utilities and regular expressions; `os` and other
filesystem/network/process modules are absent. -/
def allowedModules : List String :=
  ["math", "json", "datetime", "time", "re", "string", "random",
   "itertools", "functools", "collections"]

/-- Modelled from the spec: the CallCounter and the externally observable
tool-invocation record (spec.md §3): one mutable counter shared by all
wrapped tool callables of one execution, plus the trace of dispatched tool
calls (name and positional arguments), which models the tool side effects
that are not rolled back on failure (spec.md §8). -/
structure CallState where
  count : Nat := 0
  trace : List (String × List Value) := []
deriving DecidableEq, Repr

/-- Modelled from the spec: the per-execution engine state: the
RestrictedNamespace's variable bindings (most recent first), the imported
allow-listed modules, the call/trace state, the fuel consumed so far
(modelling elapsed wall-clock time), and the value of an executed top-level
`return`, if any. Created fresh per execution and discarded at the end
(spec.md §3). -/
structure ExecState where
  env : List (String × Value) := []
  imported : List String := []
  calls : CallState := {}
  fuelUsed : Nat := 0
  retVal : Option Value := none
deriving DecidableEq, Repr

mutual
/-- Modelled from the spec: expression evaluation inside the Execution
Engine. Variable lookup resolves against the RestrictedNamespace; a call to
a name bound in the ToolRegistry goes through the Call Budget Enforcer
(spec.md §4.3): the counter is incremented before dispatch, and once it
exceeds the configured maximum the call fails with a ResourceLimitExceeded
error raised from inside the sandboxed code; a call to any other name is a
capability violation (NameError kind); keyword arguments surviving to
execution (the transformer not having run) are a runtime error, since the
tool's true parameter names are unknown (spec.md §4.1). -/
def evalExpr (reg : ToolRegistry) (cfg : Config) (env : List (String × Value)) :
    Expr → CallState → CallState × Except ExecError Value
  | .lit n, cs => (cs, .ok n)
  | .var x, cs =>
      match env.lookup x with
      | some v => (cs, .ok v)
      | none => (cs, .error (.nameError x))
  | .add a b, cs =>
      match evalExpr reg cfg env a cs with
      | (cs1, .error e) => (cs1, .error e)
      | (cs1, .ok va) =>
        match evalExpr reg cfg env b cs1 with
        | (cs2, .error e) => (cs2, .error e)
        | (cs2, .ok vb) => (cs2, .ok (va + vb))
  | .call f args kwargs, cs =>
      match reg.lookup f with
      | none => (cs, .error (.nameError f))
      | some impl =>
        match kwargs with
        | _ :: _ =>
            (cs, .error (.runtimeError ("unexpected keyword argument in call to " ++ f)))
        | [] =>
          match evalArgs reg cfg env args cs with
          | (cs1, .error e) => (cs1, .error e)
          | (cs1, .ok vs) =>
            let c := cs1.count + 1
            if cfg.maxCalls < c then
              ({ cs1 with count := c }, .error (.resourceLimitExceeded cfg.maxCalls))
            else
              ({ count := c, trace := cs1.trace ++ [(f, vs)] }, .ok (impl vs))

/-- Left-to-right evaluation of a positional-argument list. -/
def evalArgs (reg : ToolRegistry) (cfg : Config) (env : List (String × Value)) :
    List Expr → CallState → CallState × Except ExecError (List Value)
  | [], cs => (cs, .ok [])
  | e :: es, cs =>
      match evalExpr reg cfg env e cs with
      | (cs1, .error er) => (cs1, .error er)
      | (cs1, .ok v) =>
        match evalArgs reg cfg env es cs1 with
        | (cs2, .error er) => (cs2, .error er)
        | (cs2, .ok vs) => (cs2, .ok (v :: vs))
end

/-- Modelled from the spec: the Execution Engine's statement loop
(spec.md §4.4), fuel-bounded to model the wall-clock timeout: each executed
statement consumes one unit of fuel, and exhausting the fuel with work still
pending is the Timeout kind. An `import` of a module outside the allow-list
fails immediately with the ImportError kind and executes nothing further; a
top-level `return` records its value and stops the statement list (the
synthetic wrapper function returns); `while True` re-queues its body ahead
of itself, so it runs until the fuel is gone. On error, the state reached so
far is returned alongside the error so the externally visible tool trace
survives (tool side effects are not rolled back, spec.md §8). -/
def runStmts (reg : ToolRegistry) (cfg : Config) :
    Nat → List Stmt → ExecState → ExecState × Option ExecError
  | _, [], st => (st, none)
  | 0, _ :: _, st => (st, some .timeoutExpired)
  | f + 1, s :: rest, st =>
      let st0 := { st with fuelUsed := st.fuelUsed + 1 }
      match s with
      | .importMod m =>
          if allowedModules.contains m then
            runStmts reg cfg f rest { st0 with imported := m :: st0.imported }
          else
            (st0, some (.importError m))
      | .assign x e =>
          match evalExpr reg cfg st0.env e st0.calls with
          | (cs1, .error er) => ({ st0 with calls := cs1 }, some er)
          | (cs1, .ok v) =>
              runStmts reg cfg f rest { st0 with calls := cs1, env := (x, v) :: st0.env }
      | .exprStmt e =>
          match evalExpr reg cfg st0.env e st0.calls with
          | (cs1, .error er) => ({ st0 with calls := cs1 }, some er)
          | (cs1, .ok _) => runStmts reg cfg f rest { st0 with calls := cs1 }
      | .ret e =>
          match evalExpr reg cfg st0.env e st0.calls with
          | (cs1, .error er) => ({ st0 with calls := cs1 }, some er)
          | (cs1, .ok v) => ({ st0 with calls := cs1, retVal := some v }, none)
      | .whileTrue body =>
          runStmts reg cfg f (body ++ s :: rest) st0

/-- Modelled from the spec: the result-value determination policy of the
Execution Engine (spec.md §4.4), in priority order: an explicit top-level
`return` value first, then the variable named `result` if bound, otherwise
absent. -/
def determineResult (st : ExecState) : Option Value :=
  match st.retVal with
  | some v => some v
  | none => st.env.lookup "result"

/-- Modelled from the spec: the ExecutionResult record produced by the
Result Reporter (spec.md §3, §4.5, §6): a two-branch outcome with fields
`status` ("success" or "error"), optional `result` value, optional `error`
message, and elapsed time `total_time` (here: fuel consumed). -/
structure ExecutionResult where
  status : String
  result : Option Value
  error : Option String
  total_time : Nat
deriving DecidableEq, Repr

/-- Modelled from the spec: the missing executor entry point
`run_user_code(code, multi_mcp)` of `action/executor.py` (spec.md §6):
parse, apply the Source Transformer, execute inside a fresh restricted
namespace under the fuel budget, and report the uniform ExecutionResult.
The second component of the returned pair is the externally observable tool
invocation trace (the side effects of dispatched tool calls), which is not
part of the result record but survives failures. -/
def run_user_code (cfg : Config) (src : Source) (reg : ToolRegistry) :
    ExecutionResult × List (String × List Value) :=
  match src with
  | .malformed msg =>
      ({ status := "error", result := none,
         error := some (errorMessage (.parseError msg)), total_time := 0 }, [])
  | .prog stmts =>
      match runStmts reg cfg cfg.timeout (stripSL stmts) {} with
      | (st, some e) =>
          ({ status := "error", result := none,
             error := some (errorMessage e), total_time := st.fuelUsed }, st.calls.trace)
      | (st, none) =>
          ({ status := "success", result := determineResult st,
             error := none, total_time := st.fuelUsed }, st.calls.trace)

/-- The default configuration observed in the tests: at most 5 tool calls. -/
def defaultConfig : Config := {}

/-- The mock tool registry of `action/test_executor.py` (`MockMultiMCP`):
`add` sums its arguments, `multiply` multiplies them. -/
def sampleReg : ToolRegistry :=
  [("add", fun vs => vs.foldl (· + ·) 0),
   ("multiply", fun vs => vs.foldl (· * ·) 1)]

/-!
Embedding of the agent loop (`src/session10/agent/agent_loop_modified.py`).
The `Step` and `ToolCode` dataclasses live in `agent/agentSession.py`, which
is not in the source tree; their fields are taken from their construction
and use sites in `agent_loop_modified.py` (index, description, type, code,
conclusion, status, error, execution_result, perception). Mutations of the
`AgentSession` object (`add_plan_version`, `mark_complete`) are outside the
embedded state; `session.get_next_step_index()` is abstracted as the
`expected` parameter.
-/

/-- A JSON-style value appearing under the `step_index` key of a decision
output. Distinguishing integers, booleans, strings and null is what Python's
`isinstance(proposed_index, int)` check needs. -/
inductive JValue where
  | jnull
  | jint (n : Int)
  | jbool (b : Bool)
  | jstr (s : String)
deriving DecidableEq, Repr

/-- Python's `isinstance(x, int)` view of a JSON value: `bool` is a subtype
of `int` in Python, so booleans count as the integers 1 and 0; strings and
null do not. -/
def asPyInt : JValue → Option Int
  | .jint n => some n
  | .jbool b => some (if b then 1 else 0)
  | _ => none

/-- The `ToolCode` record (from `agent/agentSession.py`, fields as
constructed in `_store_plan_and_return_step`): a tool name and a string
argument mapping. -/
structure ToolCode where
  tool_name : String
  tool_arguments : List (String × String)
deriving DecidableEq, Repr

/-- The perception snapshot fields `_execute_code_step` reads
(`original_goal_achieved`, `solution_summary`), from
`_normalize_perception_output` in `agent_loop_modified.py`. -/
structure PerceptionSnapshot where
  original_goal_achieved : Bool := false
  solution_summary : String := "Not ready yet"
deriving DecidableEq, Repr

/-- The `Step` record (from `agent/agentSession.py`, fields as constructed
and mutated in `agent_loop_modified.py`). -/
structure Step where
  index : Int
  description : String
  type : String
  code : Option ToolCode
  conclusion : Option String
  status : String := "pending"
  error : Option String := none
  execution_result : Option String := none
  perception : Option PerceptionSnapshot := none
deriving DecidableEq, Repr, Inhabited

/-- The `next_step` object of a decision output, as read by
`_store_plan_and_return_step`: each `.get(key)` that may be absent is an
`Option`. -/
structure NextStep where
  step_index : Option JValue := none
  description : Option String := none
  type : Option String := none
  code : Option String := none
  conclusion : Option String := none
deriving DecidableEq, Repr

/-- A decision output dict as read by `_store_plan_and_return_step`:
`plan_text` and `next_step` keys, each possibly absent or falsy (`none`). -/
structure DecisionOutput where
  plan_text : Option (List String) := none
  next_step : Option NextStep := none
deriving DecidableEq, Repr

/-- `AgentLoopModified._store_plan_and_return_step`
(`agent_loop_modified.py`, lines 144–172): a falsy decision output or a
falsy `next_step` returns `None`; otherwise the proposed `step_index` is
kept only when it is an `int` (Python sense) and at least the session's
expected next index, else it is replaced by the expected index; the step
record is built with defaults for missing fields, with a `raw_code_block`
ToolCode payload exactly when the step type is "CODE". The returned pair is
the plan text stored by `session.add_plan_version` and the step. -/
def storePlanAndReturnStep (expected : Int) (decisionOutput : Option DecisionOutput) :
    Option (List String × Step) :=
  match decisionOutput with
  | none => none
  | some d =>
    let planText := d.plan_text.getD []
    match d.next_step with
    | none => none
    | some ns =>
      let stepIndex : Int :=
        match ns.step_index.bind asPyInt with
        | none => expected
        | some p => if p < expected then expected else p
      let stepType := ns.type.getD "NOP"
      let stepCode := ns.code.getD ""
      some (planText,
        { index := stepIndex,
          description := ns.description.getD "No description provided.",
          type := stepType,
          code := if stepType = "CODE" then
                    some { tool_name := "raw_code_block", tool_arguments := [("code", stepCode)] }
                  else none,
          conclusion := ns.conclusion })

/-- The executor response dict as consumed by `_execute_code_step`
(`status`, `result`, `error` keys of the awaited `run_user_code` value). -/
structure ExecutorResponse where
  status : String
  result : Option String := none
  error : Option String := none
deriving DecidableEq, Repr

/-- The externally visible collaborator invocations of
`_execute_code_step`: a call into the executor (`run_user_code`) with the
code string, and a call into the perception module. -/
inductive AgentEffect where
  | executorCall (code : String)
  | perceptionCall
deriving DecidableEq, Repr

/-- `AgentLoopModified._execute_code_step`
(`agent_loop_modified.py`, lines 174–202): a step with no code payload is
marked failed with the message "Missing code payload." and the function
returns at once, invoking neither the executor nor perception. Otherwise
the code string is passed to `run_user_code` (abstracted as the `runExec`
oracle), the step's result/error/status fields are set from the response,
and the perception module (abstracted as the `percep` oracle) produces the
step's perception snapshot. The effect list records which collaborators
were invoked, in order. `session.mark_complete` is a session mutation
outside the embedded state. -/
def executeCodeStep (runExec : String → ExecutorResponse)
    (percep : PerceptionSnapshot) (step : Step) : Step × List AgentEffect :=
  match step.code with
  | none => ({ step with status := "failed", error := some "Missing code payload." }, [])
  | some tc =>
      let code := (tc.tool_arguments.lookup "code").getD ""
      let resp := runExec code
      ({ step with
          execution_result := resp.result,
          error := resp.error,
          status := if resp.status = "success" then "completed" else "failed",
          perception := some percep },
       [.executorCall code, .perceptionCall])

/-! ## Concrete demonstration inputs -/

/-- A straight-line source of zero-argument tool-call statements, one per
name in the list: the shape of the "too many function calls" tests in
`test_executor.py` and `quick_test.py`. -/
def callStmtsOf (names : List String) : List Stmt :=
  names.map (fun n => Stmt.exprStmt (Expr.call n [] []))

/-- The infinite loop `while True: pass`, the spec's example of source that
never returns control. -/
def loopForever : List Stmt := [Stmt.whileTrue []]

/-- The source `result = 2 + 2` of `quick_test.py`. -/
def demoResultAssign : List Stmt := [.assign "result" (.add (.lit 2) (.lit 2))]

/-- The engine state after running `result = 2 + 2`. -/
def demoResultSt : ExecState := { env := [("result", 4)], fuelUsed := 1 }

/-- The source `result = 1` then `return 99` (spec.md §8's auto-return
precedence test). -/
def demoReturnWins : List Stmt := [.assign "result" (.lit 1), .ret (.lit 99)]

/-- The engine state after running `demoReturnWins`. -/
def demoReturnWinsSt : ExecState :=
  { env := [("result", 1)], fuelUsed := 2, retVal := some 99 }

/-- A decision output proposing step index 0 when the session expects 2. -/
def demoDecision : DecisionOutput :=
  { plan_text := some ["Step 1", "Step 2"],
    next_step := some { step_index := some (.jint 0), description := some "redo",
                        type := some "CODE", code := some "result = 1" } }

/-- A CODE step with no payload. -/
def demoNoPayloadStep : Step :=
  { index := 1, description := "run the block", type := "CODE",
    code := none, conclusion := none }

/-! ## Helper lemmas and claim theorems -/


/-- Every ExecutionResult is one of the two branches: success with no error
message, or error with a message and no result value. -/
theorem run_user_code_branches (cfg : Config) (src : Source) (reg : ToolRegistry) :
    ((run_user_code cfg src reg).1.status = "success" ∧
     (run_user_code cfg src reg).1.error = none) ∨
    ((run_user_code cfg src reg).1.status = "error" ∧
     (run_user_code cfg src reg).1.result = none ∧
     ∃ m, (run_user_code cfg src reg).1.error = some m) := by
  cases src with
  | malformed m =>
      right
      exact ⟨rfl, rfl, errorMessage (.parseError m), rfl⟩
  | prog stmts =>
      rcases h : runStmts reg cfg cfg.timeout (stripSL stmts) {} with ⟨st, err⟩
      cases err with
      | none =>
          left
          constructor <;> simp [run_user_code, h]
      | some e =>
          right
          refine ⟨?_, ?_, errorMessage e, ?_⟩ <;> simp [run_user_code, h]

/-- The Source Transformer distributes over list append. -/
theorem stripArgs_append (a b : List Expr) :
    stripArgs (a ++ b) = stripArgs a ++ stripArgs b := by
  induction a with
  | nil => simp [stripArgs]
  | cons e es ih => simp [stripArgs, ih]

/-- Rewriting keyword arguments is rewriting their values positionally. -/
theorem stripKw_eq_stripArgs (kvs : List (String × Expr)) :
    stripKw kvs = stripArgs (kvs.map Prod.snd) := by
  induction kvs with
  | nil => simp [stripKw, stripArgs]
  | cons kv kvs ih => simp [stripKw, stripArgs, ih]

/-- The transformer leaves a straight-line tool-call source unchanged. -/
theorem stripSL_callStmtsOf (names : List String) :
    stripSL (callStmtsOf names) = callStmtsOf names := by
  induction names with
  | nil => simp [callStmtsOf, stripSL]
  | cons n ns ih =>
      simpa [callStmtsOf, stripSL, stripS, stripE, stripArgs, stripKw] using ih

/-! ## Claim theorems -/

/-- C1: For every input (source, tool registry, configuration), Run returns
a well-formed ExecutionResult — its status is always one of "success" and
"error" — and never propagates a raised fault (the model is a total
function into ExecutionResult); moreover each failure kind (syntax error,
capability/import violation, resource-limit exhaustion, timeout, user-code
runtime error) is converted to the error branch, witnessed here on one
representative input per kind. -/
theorem run_user_code_never_raises :
    (∀ (cfg : Config) (src : Source) (reg : ToolRegistry),
       (run_user_code cfg src reg).1.status = "success" ∨
       (run_user_code cfg src reg).1.status = "error") ∧
    (run_user_code defaultConfig (.malformed "unexpected EOF (line 1)") sampleReg).1.status
      = "error" ∧
    (run_user_code defaultConfig
      (.prog [.importMod "os", .assign "result" (.lit 0)]) sampleReg).1.status = "error" ∧
    (run_user_code defaultConfig
      (.prog (callStmtsOf (List.replicate 6 "add"))) sampleReg).1.status = "error" ∧
    (run_user_code defaultConfig (.prog loopForever) sampleReg).1.status = "error" ∧
    (run_user_code defaultConfig
      (.prog [.assign "result" (.var "undefined_name")]) sampleReg).1.status = "error" := by
  refine ⟨fun cfg src reg => ?_, by decide, by decide, by decide, by decide, by decide⟩
  rcases run_user_code_branches cfg src reg with ⟨h, -⟩ | ⟨h, -⟩
  · exact Or.inl h
  · exact Or.inr h

/-- C2: Every ExecutionResult satisfies the exclusivity invariant: the
status is exactly one of "success" and "error"; success implies the error
field is absent (the result field may be any value, including absent);
error implies the error field holds a description and the result field is
absent. No partially populated record occurs. -/
theorem executionResult_exclusive (cfg : Config) (src : Source) (reg : ToolRegistry) :
    ((run_user_code cfg src reg).1.status = "success" ∨
     (run_user_code cfg src reg).1.status = "error") ∧
    ((run_user_code cfg src reg).1.status = "success" →
       (run_user_code cfg src reg).1.error = none) ∧
    ((run_user_code cfg src reg).1.status = "error" →
       (run_user_code cfg src reg).1.result = none ∧
       ∃ m, (run_user_code cfg src reg).1.error = some m) := by
  rcases run_user_code_branches cfg src reg with ⟨hs, he⟩ | ⟨hs, hr, he⟩
  · refine ⟨Or.inl hs, fun _ => he, fun hcontra => ?_⟩
    rw [hs] at hcontra
    exact absurd hcontra (by decide)
  · refine ⟨Or.inr hs, fun hcontra => ?_, fun _ => ⟨hr, he⟩⟩
    rw [hs] at hcontra
    exact absurd hcontra (by decide)

/-- C2 witness: for the concrete successful run `result = 2 + 2`, the
exclusivity theorem yields that the error field is absent. -/
theorem executionResult_exclusive_witness :
    (run_user_code defaultConfig (.prog demoResultAssign) sampleReg).1.error = none :=
  (executionResult_exclusive defaultConfig (.prog demoResultAssign) sampleReg).2.1
    (by decide)

/-- C4: A source whose first statement imports a module outside the
allow-list yields the error branch with an ImportError-kind message naming
the module, consumes exactly one step, dispatches no tool call, and the
entire outcome is independent of the statements after the import — nothing
following the offending import is executed. -/
theorem disallowed_import_halts (cfg : Config) (reg : ToolRegistry) (m : String)
    (rest : List Stmt) (hm : allowedModules.contains m = false)
    (hf : 0 < cfg.timeout) :
    run_user_code cfg (.prog (.importMod m :: rest)) reg =
      ({ status := "error", result := none,
         error := some (errorMessage (.importError m)), total_time := 1 }, []) := by
  obtain ⟨f, hf'⟩ : ∃ f, cfg.timeout = f + 1 := ⟨cfg.timeout - 1, by omega⟩
  have hm' : m ∉ allowedModules := by simpa using hm
  simp [run_user_code, stripSL, stripS, hf', runStmts, hm']

/-- C4 witness: `import os; result = 0` under the default configuration
against the mock registry fails with the ImportError message for `os`. -/
theorem disallowed_import_halts_witness :
    run_user_code defaultConfig
        (.prog [.importMod "os", .assign "result" (.lit 0)]) sampleReg =
      ({ status := "error", result := none,
         error := some (errorMessage (.importError "os")), total_time := 1 }, []) :=
  disallowed_import_halts defaultConfig sampleReg "os" [.assign "result" (.lit 0)]
    (by decide) (by decide)

/-- C7: Keyword-argument calls are rewritten to positional calls discarding
the keyword names in the order given: running `result = f(xs..., k1=v1,
k2=v2, ...)` produces exactly the same ExecutionResult (and tool trace) as
running `result = f(xs..., v1, v2, ...)`, for every tool registry and
configuration. In particular `result = add(x=10, y=20)` behaves identically
to `result = add(10, 20)`. -/
theorem keyword_rewrite_equivalence (cfg : Config) (reg : ToolRegistry) (f : String)
    (xs : List Expr) (kws : List (String × Expr)) :
    run_user_code cfg (.prog [.assign "result" (.call f xs kws)]) reg =
      run_user_code cfg
        (.prog [.assign "result" (.call f (xs ++ kws.map Prod.snd) [])]) reg := by
  have h : stripSL [Stmt.assign "result" (Expr.call f xs kws)] =
      stripSL [Stmt.assign "result" (Expr.call f (xs ++ kws.map Prod.snd) [])] := by
    simp [stripSL, stripS, stripE, stripKw, stripArgs_append, stripKw_eq_stripArgs]
  simp only [run_user_code, h]

/-- Running the infinite loop consumes the entire fuel budget and reports
the Timeout kind, from any starting state. -/
theorem runStmts_loop (reg : ToolRegistry) (cfg : Config) :
    ∀ (f : Nat) (st : ExecState),
    runStmts reg cfg f loopForever st =
      ({ st with fuelUsed := st.fuelUsed + f }, some ExecError.timeoutExpired) := by
  intro f
  induction f with
  | zero => intro st; simp [loopForever, runStmts]
  | succ f ih =>
      intro st
      have h1 : runStmts reg cfg (f + 1) loopForever st =
          runStmts reg cfg f loopForever { st with fuelUsed := st.fuelUsed + 1 } := by
        simp [loopForever, runStmts]
      rw [h1, ih]
      have h2 : st.fuelUsed + 1 + f = st.fuelUsed + (f + 1) := by omega
      simp [h2]

/-- The engine consumes at most its fuel budget: elapsed fuel grows by at
most the fuel given, whatever the source and starting state. -/
theorem runStmts_fuelUsed_le (reg : ToolRegistry) (cfg : Config) :
    ∀ (f : Nat) (l : List Stmt) (st : ExecState),
    (runStmts reg cfg f l st).1.fuelUsed ≤ st.fuelUsed + f := by
  intro f
  induction f with
  | zero =>
      intro l st
      cases l <;> simp [runStmts]
  | succ f ih =>
      intro l st
      cases l with
      | nil => simp [runStmts]
      | cons s rest =>
        cases s with
        | importMod m =>
            simp only [runStmts]
            split
            · exact le_trans (ih _ _) (by simp; omega)
            · simp
        | assign x e =>
            simp only [runStmts]
            split
            · simp
            · exact le_trans (ih _ _) (by simp; omega)
        | exprStmt e =>
            simp only [runStmts]
            split
            · simp
            · exact le_trans (ih _ _) (by simp; omega)
        | ret e =>
            simp only [runStmts]
            split
            · simp
            · simp
        | whileTrue body =>
            simp only [runStmts]
            exact le_trans (ih _ _) (by simp; omega)

/-- C8: Run always terminates within the configured budget: on the source
that never returns control (the infinite loop `while True: pass`) it
reports status "error" with the Timeout-kind message after consuming
exactly the configured budget, and on every source whatsoever the reported
elapsed time never exceeds the configured timeout — the call returns within
a bounded margin of the timeout rather than running indefinitely. -/
theorem timeout_bounded (cfg : Config) (reg : ToolRegistry) (src : Source) :
    ((run_user_code cfg (.prog loopForever) reg).1.status = "error" ∧
     (run_user_code cfg (.prog loopForever) reg).1.error =
       some (errorMessage .timeoutExpired) ∧
     (run_user_code cfg (.prog loopForever) reg).1.total_time = cfg.timeout) ∧
    (run_user_code cfg src reg).1.total_time ≤ cfg.timeout := by
  have hstrip : stripSL loopForever = loopForever := by
    simp [loopForever, stripSL, stripS]
  constructor
  · have h := runStmts_loop reg cfg cfg.timeout ({} : ExecState)
    refine ⟨?_, ?_, ?_⟩ <;> simp [run_user_code, hstrip, h]
  · cases src with
    | malformed m => simp [run_user_code]
    | prog stmts =>
        rcases h : runStmts reg cfg cfg.timeout (stripSL stmts) {} with ⟨st, err⟩
        have hb := runStmts_fuelUsed_le reg cfg cfg.timeout (stripSL stmts) {}
        rw [h] at hb
        simp only [ExecState.fuelUsed] at hb
        cases err <;> simp [run_user_code, h] <;> omega

/-- Evaluating a zero-argument call to a registered tool: the Call Budget
Enforcer increments the counter, then either fails (budget exceeded) or
dispatches and records the invocation. -/
theorem evalExpr_call_nil (reg : ToolRegistry) (cfg : Config)
    (env : List (String × Value)) (n : String) (impl : List Value → Value)
    (cs : CallState) (hl : reg.lookup n = some impl) :
    evalExpr reg cfg env (.call n [] []) cs =
      (if cfg.maxCalls < cs.count + 1 then
         ({ cs with count := cs.count + 1 },
          .error (.resourceLimitExceeded cfg.maxCalls))
       else
         ({ count := cs.count + 1, trace := cs.trace ++ [(n, [])] },
          .ok (impl []))) := by
  simp [evalExpr, evalArgs, hl]

/-- Running a straight-line list of registered zero-argument tool calls that
fits inside the remaining budget and fuel: every call dispatches, the
counter grows by the number of calls, the trace records them in order, and
execution continues with the remaining statements. -/
theorem runStmts_calls_ok (reg : ToolRegistry) (cfg : Config) :
    ∀ (names : List String) (rest : List Stmt) (st : ExecState) (f : Nat),
    (∀ n ∈ names, (reg.lookup n).isSome) →
    st.calls.count + names.length ≤ cfg.maxCalls →
    names.length ≤ f →
    runStmts reg cfg f (callStmtsOf names ++ rest) st =
      runStmts reg cfg (f - names.length) rest
        { st with
          calls := { count := st.calls.count + names.length,
                     trace := st.calls.trace ++ names.map (fun n => (n, [])) },
          fuelUsed := st.fuelUsed + names.length } := by
  intro names
  induction names with
  | nil =>
      intro rest st f _ _ _
      simp [callStmtsOf]
  | cons n ns ih =>
      intro rest st f hin hbudget hfuel
      obtain ⟨impl, hl⟩ : ∃ impl, reg.lookup n = some impl :=
        Option.isSome_iff_exists.mp (hin n (by simp))
      cases f with
      | zero => simp at hfuel
      | succ f =>
          have hfuel' : ns.length ≤ f := by
            simp only [List.length_cons] at hfuel
            omega
          have hnotover : ¬ (cfg.maxCalls < st.calls.count + 1) := by
            simp only [List.length_cons] at hbudget
            omega
          have hstep : runStmts reg cfg (f + 1) (callStmtsOf (n :: ns) ++ rest) st =
              runStmts reg cfg f (callStmtsOf ns ++ rest)
                { st with fuelUsed := st.fuelUsed + 1,
                          calls := { count := st.calls.count + 1,
                                     trace := st.calls.trace ++ [(n, [])] } } := by
            simp only [callStmtsOf, List.map_cons, List.cons_append, runStmts]
            rw [evalExpr_call_nil reg cfg _ n impl _ hl]
            simp [hnotover, callStmtsOf]
          rw [hstep,
            ih (rest) _ f (fun m hm => hin m (by simp [hm]))
              (by simp only [List.length_cons] at hbudget; simp; omega) hfuel']
          have harith : f + 1 - (ns.length + 1) = f - ns.length := by omega
          have hcount : st.calls.count + 1 + ns.length = st.calls.count + (ns.length + 1) := by
            omega
          have hfu : st.fuelUsed + 1 + ns.length = st.fuelUsed + (ns.length + 1) := by omega
          simp [harith, hcount, hfu]

/-- A registered zero-argument tool call attempted with the budget already
exhausted fails at once with the ResourceLimitExceeded kind: the counter is
incremented, no invocation is recorded, and nothing after the failing call
runs. -/
theorem runStmts_call_over (reg : ToolRegistry) (cfg : Config) (n : String)
    (impl : List Value → Value) (rest : List Stmt) (st : ExecState) (f : Nat)
    (hl : reg.lookup n = some impl) (hc : st.calls.count = cfg.maxCalls)
    (hf : 0 < f) :
    runStmts reg cfg f (Stmt.exprStmt (Expr.call n [] []) :: rest) st =
      ({ st with fuelUsed := st.fuelUsed + 1,
                 calls := { st.calls with count := st.calls.count + 1 } },
       some (ExecError.resourceLimitExceeded cfg.maxCalls)) := by
  obtain ⟨f, rfl⟩ : ∃ f', f = f' + 1 := ⟨f - 1, by omega⟩
  have hover : cfg.maxCalls < st.calls.count + 1 := by omega
  simp only [runStmts]
  rw [evalExpr_call_nil reg cfg _ n impl _ hl]
  simp [hover]

/-- C3: For every straight-line source invoking registered tools more times
than the configured maximum, Run returns the error branch with the message
identifying the call-count limit: the counter counts total calls across all
tools (the names need not be distinct), the failing call is the
ResourceLimitExceeded kind raised from inside the sandboxed code after
exactly limit+1 steps, and the trace still records the dispatched
within-budget calls 1..limit — their side effects are not rolled back. -/
theorem call_budget_exceeded_reports_limit (cfg : Config) (reg : ToolRegistry)
    (names : List String)
    (hin : ∀ n ∈ names, (reg.lookup n).isSome)
    (hover : cfg.maxCalls < names.length)
    (hfuel : cfg.maxCalls < cfg.timeout) :
    run_user_code cfg (.prog (callStmtsOf names)) reg =
      ({ status := "error", result := none,
         error := some (errorMessage (.resourceLimitExceeded cfg.maxCalls)),
         total_time := cfg.maxCalls + 1 },
       (names.take cfg.maxCalls).map (fun n => (n, []))) := by
  rcases hdrop : names.drop cfg.maxCalls with _ | ⟨d, ds⟩
  · exfalso
    have := congrArg List.length hdrop
    simp [List.length_drop] at this
    omega
  · have hnames : names.take cfg.maxCalls ++ d :: ds = names := by
      rw [← hdrop]
      exact List.take_append_drop _ _
    have hlenpre : (names.take cfg.maxCalls).length = cfg.maxCalls := by
      simp [List.length_take]
      omega
    have hd_mem : d ∈ names := by
      rw [← hnames]
      simp
    obtain ⟨impl, hl⟩ : ∃ impl, reg.lookup d = some impl :=
      Option.isSome_iff_exists.mp (hin d hd_mem)
    have hsplit : callStmtsOf names =
        callStmtsOf (names.take cfg.maxCalls) ++
          (Stmt.exprStmt (Expr.call d [] []) :: callStmtsOf ds) := by
      conv_lhs => rw [← hnames]
      simp [callStmtsOf]
    have hpre := runStmts_calls_ok reg cfg (names.take cfg.maxCalls)
      (Stmt.exprStmt (Expr.call d [] []) :: callStmtsOf ds) {} cfg.timeout
      (fun m hm => hin m (by rw [← hnames]; simp; exact Or.inl hm))
      (by simp [hlenpre]) (by rw [hlenpre]; omega)
    have hfail := runStmts_call_over reg cfg d impl (callStmtsOf ds)
      { (({} : ExecState)) with
        calls := { count := ({} : ExecState).calls.count + (names.take cfg.maxCalls).length,
                   trace := ({} : ExecState).calls.trace ++
                     (names.take cfg.maxCalls).map (fun n => (n, [])) },
        fuelUsed := ({} : ExecState).fuelUsed + (names.take cfg.maxCalls).length }
      (cfg.timeout - (names.take cfg.maxCalls).length)
      hl (by simp [hlenpre]) (by rw [hlenpre]; omega)
    have hrun : runStmts reg cfg cfg.timeout (stripSL (callStmtsOf names)) {} =
        ({ env := [], imported := [],
           calls := { count := cfg.maxCalls + 1,
                      trace := (names.take cfg.maxCalls).map (fun n => (n, [])) },
           fuelUsed := cfg.maxCalls + 1, retVal := none },
         some (ExecError.resourceLimitExceeded cfg.maxCalls)) := by
      rw [stripSL_callStmtsOf, hsplit, hpre, hfail]
      simp [hlenpre]
    simp [run_user_code, hrun]

/-- C3 witness: six `add` calls under the default limit of 5 fail with the
limit-identifying message, after recording the five dispatched calls. -/
theorem call_budget_exceeded_witness :
    run_user_code defaultConfig
        (.prog (callStmtsOf (List.replicate 6 "add"))) sampleReg =
      ({ status := "error", result := none,
         error := some (errorMessage (.resourceLimitExceeded defaultConfig.maxCalls)),
         total_time := defaultConfig.maxCalls + 1 },
       ((List.replicate 6 "add").take defaultConfig.maxCalls).map (fun n => (n, []))) :=
  call_budget_exceeded_reports_limit defaultConfig sampleReg
    (List.replicate 6 "add") (by decide) (by decide) (by decide)

/-- C5: When execution of a source completes without error, without an
explicit top-level return, and with the variable named `result` bound to a
final value `v`, Run reports status "success" with the result field equal
to `v` — the result-variable convention. In particular a source containing
no tool calls and ending in `result = ...` reports the variable's final
value (witness: `result = 2 + 2` yields 4). -/
theorem result_variable_convention (cfg : Config) (reg : ToolRegistry)
    (stmts : List Stmt) (st : ExecState) (v : Value)
    (hrun : runStmts reg cfg cfg.timeout (stripSL stmts) {} = (st, none))
    (hnoret : st.retVal = none)
    (hres : st.env.lookup "result" = some v) :
    (run_user_code cfg (.prog stmts) reg).1 =
      { status := "success", result := some v, error := none,
        total_time := st.fuelUsed } := by
  simp [run_user_code, hrun, determineResult, hnoret, hres]

/-- C5 witness: `result = 2 + 2` yields status "success" and result 4. -/
theorem result_variable_convention_witness :
    (run_user_code defaultConfig (.prog demoResultAssign) sampleReg).1 =
      { status := "success", result := some 4, error := none,
        total_time := demoResultSt.fuelUsed } :=
  result_variable_convention defaultConfig sampleReg demoResultAssign demoResultSt 4
    (by decide) (by decide) (by decide)

/-- C6: Result determination follows the priority order: when execution
completes without error, an explicit top-level return value `v` is the
reported result even when a `result` variable is also bound (explicit
return beats the convention); when there is neither a top-level return nor
a `result` variable, the result field is absent (`none`) while the status
is still "success". -/
theorem return_beats_result_variable (cfg : Config) (reg : ToolRegistry)
    (stmts : List Stmt) (st : ExecState)
    (hrun : runStmts reg cfg cfg.timeout (stripSL stmts) {} = (st, none)) :
    (∀ v : Value, st.retVal = some v →
       (run_user_code cfg (.prog stmts) reg).1.status = "success" ∧
       (run_user_code cfg (.prog stmts) reg).1.result = some v) ∧
    (st.retVal = none → st.env.lookup "result" = none →
       (run_user_code cfg (.prog stmts) reg).1.status = "success" ∧
       (run_user_code cfg (.prog stmts) reg).1.result = none) := by
  constructor
  · intro v hv
    constructor <;> simp [run_user_code, hrun, determineResult, hv]
  · intro hnone hres
    constructor <;> simp [run_user_code, hrun, determineResult, hnone, hres]

/-- C6 witness: with both `result = 1` and `return 99`, the reported result
is 99. -/
theorem return_beats_result_variable_witness :
    (run_user_code defaultConfig (.prog demoReturnWins) sampleReg).1.status = "success" ∧
    (run_user_code defaultConfig (.prog demoReturnWins) sampleReg).1.result = some 99 :=
  (return_beats_result_variable defaultConfig sampleReg demoReturnWins demoReturnWinsSt
      (by decide)).1 99 (by decide)

/-- C9: Every step returned by `_store_plan_and_return_step` has an index
at least the session's expected next step index, and whenever the proposed
`step_index` is not an integer (Python sense) or is below the expected
index, it is silently replaced by the expected index — stored step indices
never go backwards. -/
theorem step_index_never_backwards (expected : Int)
    (decisionOutput : Option DecisionOutput) (pr : List String × Step)
    (h : storePlanAndReturnStep expected decisionOutput = some pr) :
    expected ≤ pr.2.index ∧
    ∀ d ns, decisionOutput = some d → d.next_step = some ns →
      (ns.step_index.bind asPyInt = none ∨
       ∃ p, ns.step_index.bind asPyInt = some p ∧ p < expected) →
      pr.2.index = expected := by
  cases decisionOutput with
  | none => simp [storePlanAndReturnStep] at h
  | some d =>
    cases hns : d.next_step with
    | none => simp [storePlanAndReturnStep, hns] at h
    | some ns =>
      simp only [storePlanAndReturnStep, hns, Option.some.injEq] at h
      subst h
      cases hp : ns.step_index.bind asPyInt with
      | none =>
          refine ⟨?_, fun d' ns' hd' hns' _ => ?_⟩
          · simp [hp]
          · simp [hp]
      | some p =>
          refine ⟨?_, fun d' ns' hd' hns' hbad => ?_⟩
          · simp only [hp]
            by_cases hlt : p < expected
            · simp [hlt]
            · simp [hlt]
              omega
          · cases hd'
            rw [hns] at hns'
            cases hns'
            rcases hbad with hnone | ⟨q, hq, hqlt⟩
            · rw [hp] at hnone; cases hnone
            · rw [hp] at hq
              cases hq
              simp only [hp]
              simp [hqlt]

/-- C9 witness: a proposed index 0 against expected index 2 is stored with
index 2 (and hence not below the expected index). -/
theorem step_index_never_backwards_witness :
    2 ≤ ((storePlanAndReturnStep 2 (some demoDecision)).getD ([], default)).2.index ∧
    ((storePlanAndReturnStep 2 (some demoDecision)).getD ([], default)).2.index = 2 := by
  have h := step_index_never_backwards 2 (some demoDecision)
    ((storePlanAndReturnStep 2 (some demoDecision)).getD ([], default)) (by decide)
  exact ⟨h.1, h.2 demoDecision _ rfl rfl (Or.inr ⟨0, by decide, by decide⟩)⟩

/-- C10: A CODE step carrying no code payload (`step.code = None`) is
marked failed with the error message "Missing code payload." by
`_execute_code_step`, which returns immediately: the executor
(`run_user_code`) and the perception module are never invoked (the effect
list is empty), and every other step field is unchanged. -/
theorem missing_code_payload_short_circuits (runExec : String → ExecutorResponse)
    (percep : PerceptionSnapshot) (step : Step) (h : step.code = none) :
    executeCodeStep runExec percep step =
      ({ step with status := "failed", error := some "Missing code payload." }, []) := by
  simp [executeCodeStep, h]

/-- C10 witness: the payload-less step is failed with the exact message and
no collaborator is invoked. -/
theorem missing_code_payload_short_circuits_witness :
    executeCodeStep (fun _ => { status := "success" }) {} demoNoPayloadStep =
      ({ demoNoPayloadStep with
          status := "failed", error := some "Missing code payload." }, []) :=
  missing_code_payload_short_circuits (fun _ => { status := "success" }) {}
    demoNoPayloadStep rfl

end EAGV2
